import Mathlib

/-!
Verification of the AIGC extension (`hunyuan/aigc_extension/extension.py`).

The development shallowly embeds the pieces of the extension that carry
logic: the scale-to-height computation (`_scale_prim_to_height`), the
generation polling loop (`_poll_generation_status` together with
`_save_generated_model`), the pending-UI-update queue and its pump
(`_setup_ui_update_timer.process_ui_updates`), the single-job trigger
discipline (`_generate_3d_model`), and the unique-prim-path loop of
`_load_glb_to_stage` / `_load_glb_to_stage_direct`.

Machine floats from the source are modelled as rationals; the host (USD)
bounding-box API is modelled by its documented `GfRange3d` semantics
(a range is empty when min exceeds max on some dimension).  Python
exceptions that the source catches (notably the division by zero in the
scale computation, which falls into the surrounding `except` block and
makes the function return `None`) are modelled as explicit `none`
results.
-/

namespace HunyuanExt

/-- Three rational components, standing in for `Gf.Vec3d` / `Gf.Vec3f`. -/
structure Vec3 where
  x : ℚ
  y : ℚ
  z : ℚ
  deriving DecidableEq, Repr

/-- The `height_axis` argument of `_scale_prim_to_height` (after the
`.upper()` normalisation; the UI offers exactly these three). -/
inductive HeightAxis where
  | X
  | Y
  | Z
  deriving DecidableEq, Repr

/-- The part of a USD prim that `_scale_prim_to_height` reads and writes:
the world-space bounding box reported by `ComputeWorldBound`, and the value
of the scale xform op (`none` when the prim has no scale op; the code then
uses the default `Gf.Vec3d(1.0, 1.0, 1.0)` and adds the op on write). -/
structure ScalePrim where
  bboxMin : Vec3
  bboxMax : Vec3
  scaleAttr : Option Vec3
  deriving DecidableEq, Repr

/-- `GfRange3d.IsEmpty`: true when min exceeds max in some dimension
(this is what `bbox_range.IsEmpty()` checks in the source). -/
def rangeIsEmpty (mn mx : Vec3) : Bool :=
  decide (mx.x < mn.x) || decide (mx.y < mn.y) || decide (mx.z < mn.z)

/-- `dimensions = max_point - min_point` (line 1594 of the source). -/
def bboxDims (p : ScalePrim) : Vec3 :=
  ⟨p.bboxMax.x - p.bboxMin.x, p.bboxMax.y - p.bboxMin.y, p.bboxMax.z - p.bboxMin.z⟩

/-- The measured world-space extent on the chosen height axis: the source
picks `dimensions[2]` for Z, `dimensions[0]` for X and `dimensions[1]`
for Y as `current_height`. -/
def axisHeight (p : ScalePrim) : HeightAxis → ℚ
  | HeightAxis.X => (bboxDims p).x
  | HeightAxis.Y => (bboxDims p).y
  | HeightAxis.Z => (bboxDims p).z

/-- The dictionary `_scale_prim_to_height` returns (minus the purely
textual `prim_path` / `reason` / `height_axis` entries).  The
`scaled = False` return has no `new_dimensions` key, hence the `Option`. -/
structure ScaleResult where
  current_width : ℚ
  current_height : ℚ
  current_depth : ℚ
  new_dimensions : Option (ℚ × ℚ × ℚ)
  current_scale : Vec3
  new_scale : Vec3
  target_height : ℚ
  scale_factor : ℚ
  scaled : Bool
  deriving DecidableEq, Repr

/-- Embedding of `_scale_prim_to_height(prim_path, stage, actual_height,
height_axis, tolerance)` (source lines 1566-1741).  Returns the result
dictionary (`none` for the `return None` failure paths) together with the
prim state after the call.  The division `actual_height / current_height`
is performed by Python before the tolerance check; when
`current_height = 0` it raises `ZeroDivisionError`, which the enclosing
`except` catches, returning `None` with no mutation — modelled by the
`ch = 0` branch. -/
def scale_prim_to_height (p : ScalePrim) (actual_height : ℚ)
    (height_axis : HeightAxis) (tolerance : ℚ) : Option ScaleResult × ScalePrim :=
  if rangeIsEmpty p.bboxMin p.bboxMax then (none, p)
  else
    let dims := bboxDims p
    let cwhd : ℚ × ℚ × ℚ :=
      match height_axis with
      | HeightAxis.Z => (dims.x, dims.z, dims.y)
      | HeightAxis.X => (dims.y, dims.x, dims.z)
      | HeightAxis.Y => (dims.x, dims.y, dims.z)
    let cw := cwhd.1
    let ch := cwhd.2.1
    let cd := cwhd.2.2
    let current_scale := p.scaleAttr.getD ⟨1, 1, 1⟩
    if ch = 0 then (none, p)
    else
      let scale_factor := actual_height / ch
      let new_scale : Vec3 :=
        ⟨current_scale.x * scale_factor, current_scale.y * scale_factor,
         current_scale.z * scale_factor⟩
      if |ch - actual_height| ≤ tolerance then
        (some { current_width := cw, current_height := ch, current_depth := cd,
                new_dimensions := none, current_scale := current_scale,
                new_scale := new_scale, target_height := actual_height,
                scale_factor := scale_factor, scaled := false }, p)
      else
        (some { current_width := cw, current_height := ch, current_depth := cd,
                new_dimensions := some (cw * scale_factor, ch * scale_factor, cd * scale_factor),
                current_scale := current_scale, new_scale := new_scale,
                target_height := actual_height, scale_factor := scale_factor,
                scaled := true }, { p with scaleAttr := some new_scale })

/-- A unit cube prim with no scale op, used as a concrete test asset. -/
def cubePrim : ScalePrim :=
  { bboxMin := ⟨0, 0, 0⟩, bboxMax := ⟨1, 1, 1⟩, scaleAttr := none }

/-- A prim whose bounding box has zero extent on the Y axis
(for instance a flat plane): the box is NOT empty in the `GfRange3d`
sense, but `current_height` is `0` for `height_axis = Y`. -/
def flatYPrim : ScalePrim :=
  { bboxMin := ⟨0, 0, 0⟩, bboxMax := ⟨1, 0, 1⟩, scaleAttr := some ⟨1, 1, 1⟩ }

/-- A prim whose bounding box is flat in Z: the box has zero volume but a
positive extent on the Y axis. -/
def flatZPrim : ScalePrim :=
  { bboxMin := ⟨0, 0, 0⟩, bboxMax := ⟨1, 1, 0⟩, scaleAttr := none }

/-- C2: for a target height `h > 0` and a prim whose measured extent on
the chosen height axis is `c > 0` with `|c - h| > tolerance`, the scale
operation computes `scale_factor = h / c`, multiplies every component of
the existing local scale by that same factor, writes the product back as
the new scale, and reports `scaled = true`. -/
theorem scale_to_height_scales_uniformly (p : ScalePrim) (h tol c : ℚ) (ax : HeightAxis)
    (hne : rangeIsEmpty p.bboxMin p.bboxMax = false)
    (hc : axisHeight p ax = c) (hcpos : 0 < c) (_hpos : 0 < h)
    (htol : tol < |c - h|) :
    ∃ r, (scale_prim_to_height p h ax tol).1 = some r ∧
      r.scale_factor = h / c ∧ r.scaled = true ∧
      r.new_scale = ⟨(p.scaleAttr.getD ⟨1, 1, 1⟩).x * (h / c),
                     (p.scaleAttr.getD ⟨1, 1, 1⟩).y * (h / c),
                     (p.scaleAttr.getD ⟨1, 1, 1⟩).z * (h / c)⟩ ∧
      (scale_prim_to_height p h ax tol).2.scaleAttr = some r.new_scale := by
  subst hc
  have hc0 : axisHeight p ax ≠ 0 := ne_of_gt hcpos
  cases ax <;>
  · simp_all [scale_prim_to_height, axisHeight]
    simp only [if_neg (not_le.mpr htol)]
    exact ⟨_, rfl, rfl, rfl, rfl, rfl⟩

/-- Witness for C2: the unit cube scaled to height 2 on Y. -/
theorem scale_to_height_scales_uniformly_witness :
    ∃ r, (scale_prim_to_height cubePrim 2 HeightAxis.Y (1/1000)).1 = some r ∧
      r.scale_factor = 2 / 1 ∧ r.scaled = true ∧
      r.new_scale = ⟨(cubePrim.scaleAttr.getD ⟨1, 1, 1⟩).x * (2 / 1),
                     (cubePrim.scaleAttr.getD ⟨1, 1, 1⟩).y * (2 / 1),
                     (cubePrim.scaleAttr.getD ⟨1, 1, 1⟩).z * (2 / 1)⟩ ∧
      (scale_prim_to_height cubePrim 2 HeightAxis.Y (1/1000)).2.scaleAttr = some r.new_scale :=
  scale_to_height_scales_uniformly cubePrim 2 (1/1000) 1 HeightAxis.Y
    (by norm_num [rangeIsEmpty, cubePrim])
    (by norm_num [axisHeight, bboxDims, cubePrim])
    (by norm_num) (by norm_num) (by norm_num)

/-- C3 counterexample: a prim with zero measured height on the chosen
axis and a target height within tolerance of it.  The claim says the
operation returns `scaled = false`; the code instead divides by the zero
height before the tolerance check, the `ZeroDivisionError` falls into the
`except` block, and the call returns `None` (the failure value). -/
theorem scale_skip_zero_height_cex :
    |axisHeight flatYPrim HeightAxis.Y - (1/2000 : ℚ)| ≤ (1/1000 : ℚ) ∧
    (scale_prim_to_height flatYPrim (1/2000) HeightAxis.Y (1/1000)).1 = none := by
  constructor
  · norm_num [axisHeight, bboxDims, flatYPrim, abs_le]
  · norm_num [scale_prim_to_height, flatYPrim, rangeIsEmpty, bboxDims]

/-- C3 amended: when the measured axis height is nonzero and within
tolerance of the target, the operation returns `scaled = false` and the
prim — in particular its scale attribute — is left exactly as it was. -/
theorem scale_within_tolerance_no_mutation (p : ScalePrim) (h tol : ℚ) (ax : HeightAxis)
    (hne : rangeIsEmpty p.bboxMin p.bboxMax = false)
    (hc0 : axisHeight p ax ≠ 0)
    (htol : |axisHeight p ax - h| ≤ tol) :
    ∃ r, (scale_prim_to_height p h ax tol).1 = some r ∧ r.scaled = false ∧
      (scale_prim_to_height p h ax tol).2 = p := by
  cases ax <;> simp_all [scale_prim_to_height, axisHeight]

/-- Witness for the amended C3: the unit cube with target height 1. -/
theorem scale_within_tolerance_no_mutation_witness :
    ∃ r, (scale_prim_to_height cubePrim 1 HeightAxis.Y (1/1000)).1 = some r ∧
      r.scaled = false ∧
      (scale_prim_to_height cubePrim 1 HeightAxis.Y (1/1000)).2 = cubePrim :=
  scale_within_tolerance_no_mutation cubePrim 1 (1/1000) HeightAxis.Y
    (by norm_num [rangeIsEmpty, cubePrim])
    (by norm_num [axisHeight, bboxDims, cubePrim])
    (by norm_num [axisHeight, bboxDims, cubePrim])

/-- C7 counterexample: a box that is flat in Z has zero volume, yet with
height axis Y the operation happily scales the prim (`scaled = true`,
scale attribute mutated) instead of failing with the empty-bounding-box
error: the code only fails when `GfRange3d.IsEmpty` holds, i.e. when min
exceeds max on some axis. -/
theorem zero_volume_box_scaled_cex :
    (bboxDims flatZPrim).x * (bboxDims flatZPrim).y * (bboxDims flatZPrim).z = 0 ∧
    ((scale_prim_to_height flatZPrim 2 HeightAxis.Y (1/1000)).1.map ScaleResult.scaled)
      = some true ∧
    (scale_prim_to_height flatZPrim 2 HeightAxis.Y (1/1000)).2.scaleAttr = some ⟨2, 2, 2⟩ := by
  refine ⟨by norm_num [bboxDims, flatZPrim], ?_, ?_⟩ <;>
    norm_num [scale_prim_to_height, flatZPrim, rangeIsEmpty, bboxDims, abs_le]

/-- C7 amended: the operation returns the distinguished failure value
(`none`, no mutation, no crash) exactly in the two degenerate situations
the code can encounter: the measured range is empty in the `GfRange3d`
sense (min exceeds max on some axis), or the extent on the chosen height
axis is zero (the caught division by zero). -/
theorem scale_empty_or_flat_axis_fails (p : ScalePrim) (h tol : ℚ) (ax : HeightAxis)
    (hbad : rangeIsEmpty p.bboxMin p.bboxMax = true ∨ axisHeight p ax = 0) :
    scale_prim_to_height p h ax tol = (none, p) := by
  rcases hbad with hb | hb
  · simp [scale_prim_to_height, hb]
  · cases hre : rangeIsEmpty p.bboxMin p.bboxMax
    · cases ax <;> simp_all [scale_prim_to_height, axisHeight]
    · simp [scale_prim_to_height, hre]

/-- Witness for the amended C7: the Y-flat prim fails without mutation. -/
theorem scale_empty_or_flat_axis_fails_witness :
    scale_prim_to_height flatYPrim 2 HeightAxis.Y (1/1000) = (none, flatYPrim) :=
  scale_empty_or_flat_axis_fails flatYPrim 2 (1/1000) HeightAxis.Y
    (Or.inr (by norm_num [axisHeight, bboxDims, flatYPrim]))

/-- C8: whenever the operation reports `scaled = true`, the new
dimensions it computes preserve the aspect: the ratio of any two axis
extents after scaling equals the ratio before. -/
theorem uniform_scale_preserves_aspect (p : ScalePrim) (h tol : ℚ) (ax : HeightAxis)
    (r : ScaleResult) (hr : (scale_prim_to_height p h ax tol).1 = some r)
    (hs : r.scaled = true) (hh : h ≠ 0) :
    ∃ nw nh nd, r.new_dimensions = some (nw, nh, nd) ∧
      nw / nh = r.current_width / r.current_height ∧
      nw / nd = r.current_width / r.current_depth ∧
      nh / nd = r.current_height / r.current_depth := by
  cases ax <;>
  · simp only [scale_prim_to_height] at hr
    split at hr
    · simp at hr
    · split at hr
      · simp at hr
      · split at hr
        all_goals
          rename_i hch0 _
          simp only [Prod.fst] at hr
          injection hr with hr
          subst hr
          try simp at hs
        refine ⟨_, _, _, rfl, ?_, ?_, ?_⟩ <;>
          exact mul_div_mul_right _ _ (div_ne_zero hh hch0)

/-- The result record produced by scaling `flatZPrim` to height 2 on Y. -/
def flatZScaledResult : ScaleResult :=
  { current_width := 1, current_height := 1, current_depth := 0,
    new_dimensions := some (2, 2, 0), current_scale := ⟨1, 1, 1⟩,
    new_scale := ⟨2, 2, 2⟩, target_height := 2, scale_factor := 2, scaled := true }

/-- Witness for C8: the flat-Z prim scaled to height 2 on Y. -/
theorem uniform_scale_preserves_aspect_witness :
    (scale_prim_to_height flatZPrim 2 HeightAxis.Y (1/1000)).1 = some flatZScaledResult ∧
    ∃ nw nh nd, flatZScaledResult.new_dimensions = some (nw, nh, nd) ∧
      nw / nh = flatZScaledResult.current_width / flatZScaledResult.current_height ∧
      nw / nd = flatZScaledResult.current_width / flatZScaledResult.current_depth ∧
      nh / nd = flatZScaledResult.current_height / flatZScaledResult.current_depth := by
  have h1 : (scale_prim_to_height flatZPrim 2 HeightAxis.Y (1/1000)).1 = some flatZScaledResult := by
    norm_num [scale_prim_to_height, flatZPrim, flatZScaledResult, rangeIsEmpty, bboxDims, abs_le]
  exact ⟨h1, uniform_scale_preserves_aspect flatZPrim 2 (1/1000) HeightAxis.Y
    flatZScaledResult h1 rfl (by norm_num)⟩

/-!
## The generation polling loop

`_poll_generation_status(server_url, uid)` (lines 774-822) polls
`GET {server_url}/status/{uid}` every 5 seconds for at most
`max_attempts = 120` iterations, and `_save_generated_model(uid,
model_base64)` (lines 824-862) persists a completed model and appends one
pending UI update.  The loop is embedded as a fuel recursion over a
stream `f : Nat -> PollResponse` giving the answer to the i-th status
request; transport-level exceptions raised by `requests.get` (caught by
the function's outer `except`) are the `exn` case.
-/

/-- The i-th answer of the status endpoint, as the source reads it:
HTTP status code, and the `status` / `model_base64` / `message` fields of
the JSON body (absent fields are `none`).  `exn` is a raised
`requests` exception. -/
inductive PollResponse where
  | ok (status_code : Nat) (status : Option String)
       (model_base64 : Option String) (message : Option String)
  | exn (msg : String)
  deriving DecidableEq, Repr

/-- Python truthiness of `status_data.get('model_base64')`: both a
missing field (`None`) and an empty string are falsy in
`if model_base64:`. -/
def truthy : Option String → Bool
  | none => false
  | some s => !s.isEmpty

/-- A pending UI update appended by `_save_generated_model`; the
`model_path` entry is the models directory joined with the filename, so
only the filename is carried here. -/
inductive UiUpdate where
  | add_model (filename : String)
  | auto_load_model (filename : String)
  deriving DecidableEq, Repr

/-- The extension state the generation worker reads and writes: the
status label, the saved model files, `_generated_models`,
`_pending_ui_updates`, the Generate button flag, plus instrumentation
counting issued status requests and `time.sleep(5)` calls. -/
structure WorkerSt where
  statusMsg : String
  files : List String
  generated_models : List String
  pending_ui_updates : List UiUpdate
  genBtnEnabled : Bool
  polls : Nat
  sleeps : Nat
  deriving DecidableEq, Repr

/-- Embedding of `_save_generated_model(uid, model_base64)` (lines
824-862): writes `model_{uid[:8]}_{timestamp}.glb`, records it in
`_generated_models`, and appends exactly one pending UI update whose kind
depends on `_auto_load_to_stage`. -/
def save_generated_model (uid : String) (timestamp : Nat) (auto_load : Bool)
    (st : WorkerSt) : WorkerSt :=
  let filename := "model_" ++ (uid.take 8) ++ "_" ++ Nat.repr timestamp ++ ".glb"
  let st1 := { st with files := st.files ++ [filename],
                       generated_models := st.generated_models ++ [filename] }
  if auto_load then
    { st1 with pending_ui_updates := st1.pending_ui_updates ++ [UiUpdate.auto_load_model filename],
               statusMsg := "Model saved and loading to stage: " ++ filename }
  else
    { st1 with pending_ui_updates := st1.pending_ui_updates ++ [UiUpdate.add_model filename],
               statusMsg := "Model saved: " ++ filename }

/-- `max_attempts = 120  # 10 minutes at 5-second intervals` (line 777). -/
def max_attempts : Nat := 120

/-- One-for-one embedding of the `while attempt < max_attempts` loop of
`_poll_generation_status`.  The fuel argument is
`max_attempts - attempt`, so reaching fuel 0 is exactly the loop
condition failing, after which the source sets the `Generation timeout`
status.  `break` paths return without recursing; the continue path
increments `attempt` and sleeps 5 seconds. -/
def poll_loop (f : Nat → PollResponse) (uid : String) (timestamp : Nat)
    (auto_load : Bool) : Nat → Nat → WorkerSt → WorkerSt
  | 0, _, st => { st with statusMsg := "Generation timeout" }
  | fuel + 1, attempt, st =>
    match f attempt with
    | PollResponse.exn m =>
        { st with polls := st.polls + 1, statusMsg := "Status check failed: " ++ m }
    | PollResponse.ok code status model_base64 message =>
      let st1 := { st with polls := st.polls + 1 }
      if code ≠ 200 then { st1 with statusMsg := "Failed to check status" }
      else
        let current_status := status.getD "unknown"
        if current_status = "completed" then
          let st2 := { st1 with statusMsg := "Generation completed!" }
          if truthy model_base64 then
            save_generated_model uid timestamp auto_load st2
          else
            { st2 with statusMsg := "No model data received" }
        else if current_status = "error" then
          { st1 with statusMsg := "Generation error: " ++ message.getD "Unknown error" }
        else
          let st2 :=
            if current_status = "processing" ∨ current_status = "texturing" then
              { st1 with statusMsg := "Status: " ++ current_status ++ "..." }
            else if current_status = "pending" then
              { st1 with statusMsg := "Task queued, waiting..." }
            else st1
          poll_loop f uid timestamp auto_load fuel (attempt + 1)
            { st2 with sleeps := st2.sleeps + 1 }

/-- `_poll_generation_status` proper: run the loop from `attempt = 0`;
the `finally` block re-enables the Generate button on every exit path. -/
def poll_generation_status (f : Nat → PollResponse) (uid : String) (timestamp : Nat)
    (auto_load : Bool) (st : WorkerSt) : WorkerSt :=
  let st1 := poll_loop f uid timestamp auto_load max_attempts 0 st
  { st1 with genBtnEnabled := true }

/-- A response that keeps the loop running: HTTP 200 whose `status` field
is neither `completed` nor `error` (including missing or unrecognized
statuses, which fall through every branch of the chain). -/
def nonTerminal : PollResponse → Bool
  | PollResponse.ok code status _ _ =>
      code == 200 && !(status.getD "unknown" == "completed")
        && !(status.getD "unknown" == "error")
  | PollResponse.exn _ => false

theorem save_generated_model_polls (uid : String) (ts : Nat) (auto : Bool) (st : WorkerSt) :
    (save_generated_model uid ts auto st).polls = st.polls := by
  simp only [save_generated_model]
  split <;> rfl

/-- One non-terminal iteration advances the loop to the next attempt,
incrementing exactly the request and sleep counters (the status label
becomes one of the progress messages). -/
theorem poll_loop_skip (f : Nat → PollResponse) (uid : String) (ts : Nat) (auto : Bool)
    (fuel attempt : Nat) (st : WorkerSt)
    (hnt : nonTerminal (f attempt) = true) :
    ∃ m, poll_loop f uid ts auto (fuel + 1) attempt st =
      poll_loop f uid ts auto fuel (attempt + 1)
        { st with polls := st.polls + 1, sleeps := st.sleeps + 1, statusMsg := m } := by
  cases hfa : f attempt with
  | exn m => rw [hfa] at hnt; simp [nonTerminal] at hnt
  | ok code status mb msg =>
    rw [hfa] at hnt
    simp only [nonTerminal, Bool.and_eq_true, beq_iff_eq, Bool.not_eq_true',
      beq_eq_false_iff_ne, ne_eq] at hnt
    obtain ⟨⟨hcode, hnc⟩, hne⟩ := hnt
    subst hcode
    simp only [poll_loop, hfa]
    rw [if_neg (by simp), if_neg hnc, if_neg hne]
    by_cases h1 : status.getD "unknown" = "processing" ∨ status.getD "unknown" = "texturing"
    · rw [if_pos h1]; exact ⟨_, rfl⟩
    · rw [if_neg h1]
      by_cases h2 : status.getD "unknown" = "pending"
      · rw [if_pos h2]; exact ⟨_, rfl⟩
      · rw [if_neg h2]; exact ⟨_, rfl⟩

/-- Iterating `poll_loop_skip`: `i` consecutive non-terminal responses
advance the loop `i` attempts, adding `i` to the request and sleep
counters and leaving files and pending updates untouched. -/
theorem poll_loop_skip_many (f : Nat → PollResponse) (uid : String) (ts : Nat) (auto : Bool)
    (i : Nat) : ∀ (fuel attempt : Nat) (st : WorkerSt),
    (∀ j, j < i → nonTerminal (f (attempt + j)) = true) →
    ∃ m, poll_loop f uid ts auto (fuel + i) attempt st =
      poll_loop f uid ts auto fuel (attempt + i)
        { st with polls := st.polls + i, sleeps := st.sleeps + i, statusMsg := m } := by
  induction i with
  | zero => intro fuel attempt st _; exact ⟨st.statusMsg, by simp⟩
  | succ i ih =>
    intro fuel attempt st hnt
    have hstep := poll_loop_skip f uid ts auto (fuel + i) attempt st
      (by simpa using hnt 0 (Nat.succ_pos i))
    obtain ⟨m1, h1⟩ := hstep
    obtain ⟨m2, h2⟩ := ih fuel (attempt + 1)
      { st with polls := st.polls + 1, sleeps := st.sleeps + 1, statusMsg := m1 }
      (fun j hj => by
        have := hnt (j + 1) (by omega)
        simpa [Nat.add_assoc, Nat.add_comm 1 j] using this)
    refine ⟨m2, ?_⟩
    have hfe : fuel + (i + 1) = fuel + i + 1 := rfl
    have harith : attempt + 1 + i = attempt + (i + 1) := by omega
    rw [hfe, h1, h2, harith]
    congr 1
    obtain ⟨sm, fl, gm, pu, gb, pl, sl⟩ := st
    simp only [WorkerSt.mk.injEq, and_true, true_and]
    omega

/-- Exhausted fuel is exactly the loop condition `attempt < max_attempts`
failing, whereupon the source reports `Generation timeout`. -/
theorem poll_loop_zero (f : Nat → PollResponse) (uid : String) (ts : Nat) (auto : Bool)
    (attempt : Nat) (st : WorkerSt) :
    poll_loop f uid ts auto 0 attempt st = { st with statusMsg := "Generation timeout" } := rfl

/-- Every run of the loop issues at most `fuel` further status requests. -/
theorem poll_loop_polls_le (f : Nat → PollResponse) (uid : String) (ts : Nat) (auto : Bool) :
    ∀ (fuel attempt : Nat) (st : WorkerSt),
      (poll_loop f uid ts auto fuel attempt st).polls ≤ st.polls + fuel := by
  intro fuel
  induction fuel with
  | zero => intro attempt st; simp [poll_loop]
  | succ fuel ih =>
    intro attempt st
    simp only [poll_loop]
    cases hfa : f attempt with
    | exn m => simp
    | ok code status mb msg =>
      repeat' split
      all_goals try rw [save_generated_model_polls]
      all_goals try refine le_trans (ih (attempt + 1) _) ?_
      all_goals try simp
      all_goals try omega

/-- The `on_startup` values of the worker-visible state, just after the
Generate button was disabled and the worker thread started. -/
def initWorkerSt : WorkerSt :=
  { statusMsg := "Ready", files := [], generated_models := [], pending_ui_updates := [],
    genBtnEnabled := false, polls := 0, sleeps := 0 }

/-- A server that never finishes: every poll answers 200 with `pending`. -/
def pendingForever : Nat → PollResponse :=
  fun _ => PollResponse.ok 200 (some "pending") none none

/-- C4: the polling loop issues at most `max_attempts = 120` status
requests; and when every response within the budget is non-terminal it
exits with status message `Generation timeout` after exactly 120 requests
and 120 five-second sleeps, writing no file and re-enabling the Generate
button. -/
theorem poll_budget_timeout (f : Nat → PollResponse) (uid : String) (ts : Nat)
    (auto : Bool) (st : WorkerSt) :
    (poll_generation_status f uid ts auto st).polls ≤ st.polls + max_attempts ∧
    ((∀ i, i < max_attempts → nonTerminal (f i) = true) →
      (poll_generation_status f uid ts auto st).statusMsg = "Generation timeout" ∧
      (poll_generation_status f uid ts auto st).polls = st.polls + max_attempts ∧
      (poll_generation_status f uid ts auto st).sleeps = st.sleeps + max_attempts ∧
      (poll_generation_status f uid ts auto st).files = st.files ∧
      (poll_generation_status f uid ts auto st).genBtnEnabled = true) := by
  constructor
  · simpa [poll_generation_status] using poll_loop_polls_le f uid ts auto max_attempts 0 st
  · intro hnt
    obtain ⟨m, hm⟩ := poll_loop_skip_many f uid ts auto max_attempts 0 0 st
      (fun j hj => by simpa using hnt j hj)
    rw [Nat.zero_add] at hm
    simp only [poll_generation_status]
    rw [hm]
    simp [poll_loop_zero]

/-- Witness for C4: a server that always answers `pending`. -/
theorem poll_budget_timeout_witness :
    (poll_generation_status pendingForever "abcd1234" 7 true initWorkerSt).statusMsg
        = "Generation timeout" ∧
    (poll_generation_status pendingForever "abcd1234" 7 true initWorkerSt).polls
        = initWorkerSt.polls + max_attempts ∧
    (poll_generation_status pendingForever "abcd1234" 7 true initWorkerSt).sleeps
        = initWorkerSt.sleeps + max_attempts ∧
    (poll_generation_status pendingForever "abcd1234" 7 true initWorkerSt).files
        = initWorkerSt.files ∧
    (poll_generation_status pendingForever "abcd1234" 7 true initWorkerSt).genBtnEnabled
        = true :=
  (poll_budget_timeout pendingForever "abcd1234" 7 true initWorkerSt).2
    (fun _ _ => rfl)

/-- A server whose second answer is an HTTP 503. -/
def f503 : Nat → PollResponse := fun i =>
  if i = 0 then PollResponse.ok 200 (some "pending") none none
  else PollResponse.ok 503 none none none

/-- C6 counterexample: a single failed status check (HTTP 503 on the
second poll) terminates the loop immediately — after 2 of the 120
budgeted requests — with the `Failed to check status` message, instead of
being treated like "not yet done". -/
theorem poll_non200_terminates_cex :
    (poll_generation_status f503 "abcd1234" 0 true initWorkerSt).statusMsg
        = "Failed to check status" ∧
    (poll_generation_status f503 "abcd1234" 0 true initWorkerSt).polls = 2 ∧
    2 < max_attempts := by
  exact ⟨rfl, rfl, by decide⟩

/-- C6 amended: within an iteration, an HTTP-200 response whose status
field is anything but `completed` / `error` — including a missing or
unrecognized status — is treated exactly like "not yet done" (the loop
sleeps and moves to the next attempt); a non-200 response, however,
terminates the loop at once with the `Failed to check status` message. -/
theorem poll_unknown_continues_non200_stops
    (f : Nat → PollResponse) (uid : String) (ts : Nat) (auto : Bool)
    (fuel attempt : Nat) (st : WorkerSt) (code : Nat)
    (status mb msg : Option String)
    (hf : f attempt = PollResponse.ok code status mb msg) :
    (code = 200 → status.getD "unknown" ≠ "completed" → status.getD "unknown" ≠ "error" →
      ∃ m, poll_loop f uid ts auto (fuel + 1) attempt st =
        poll_loop f uid ts auto fuel (attempt + 1)
          { st with polls := st.polls + 1, sleeps := st.sleeps + 1, statusMsg := m }) ∧
    (code ≠ 200 →
      poll_loop f uid ts auto (fuel + 1) attempt st =
        { st with polls := st.polls + 1, statusMsg := "Failed to check status" }) := by
  constructor
  · intro h200 hnc hne
    subst h200
    exact poll_loop_skip f uid ts auto fuel attempt st
      (by simp [nonTerminal, hf, hnc, hne])
  · intro hc
    simp only [poll_loop, hf]
    rw [if_pos hc]

/-- Witness for the amended C6: the 503-answering server is stopped on
the spot at attempt 1. -/
theorem poll_unknown_continues_non200_stops_witness :
    poll_loop f503 "abcd1234" 0 true (118 + 1) 1 initWorkerSt =
      { initWorkerSt with polls := initWorkerSt.polls + 1,
                          statusMsg := "Failed to check status" } :=
  (poll_unknown_continues_non200_stops f503 "abcd1234" 0 true 118 1 initWorkerSt
    503 none none none rfl).2 (by decide)

/-- C10: when the first `i` polls are non-terminal and poll `i` answers
`completed` with a missing or empty `model_base64`, the run stops on that
iteration with status `No model data received`, having written no model
file and enqueued no pending UI update (every field of the state other
than the status message, the counters and the button flag is returned
unchanged). -/
theorem completed_without_payload_no_event
    (f : Nat → PollResponse) (uid : String) (ts : Nat) (auto : Bool)
    (st : WorkerSt) (i : Nat) (mb msg : Option String)
    (hi : i < max_attempts)
    (hnt : ∀ j, j < i → nonTerminal (f j) = true)
    (hf : f i = PollResponse.ok 200 (some "completed") mb msg)
    (hmb : truthy mb = false) :
    poll_generation_status f uid ts auto st =
      { st with statusMsg := "No model data received",
                polls := st.polls + i + 1, sleeps := st.sleeps + i,
                genBtnEnabled := true } := by
  obtain ⟨m, hm⟩ := poll_loop_skip_many f uid ts auto i (max_attempts - i) 0 st
    (fun j hj => by simpa using hnt j hj)
  have hsplit : max_attempts - i + i = max_attempts := by omega
  rw [hsplit] at hm
  obtain ⟨k, hk⟩ : ∃ k, max_attempts - i = k + 1 := ⟨max_attempts - i - 1, by omega⟩
  rw [hk, Nat.zero_add] at hm
  simp only [poll_generation_status]
  rw [hm]
  simp only [poll_loop, hf, ne_eq, not_true_eq_false, if_false, Option.getD_some,
    eq_self_iff_true, if_true, hmb, Bool.false_eq_true]

/-- A server that reports `processing` once and then `completed` with an
empty model payload. -/
def completedNoPayload : Nat → PollResponse := fun i =>
  if i = 0 then PollResponse.ok 200 (some "processing") none none
  else PollResponse.ok 200 (some "completed") (some "") none

/-- Witness for C10: the empty-payload completion at attempt 1. -/
theorem completed_without_payload_no_event_witness :
    poll_generation_status completedNoPayload "abcd1234" 7 true initWorkerSt =
      { initWorkerSt with statusMsg := "No model data received",
                          polls := initWorkerSt.polls + 1 + 1,
                          sleeps := initWorkerSt.sleeps + 1,
                          genBtnEnabled := true } :=
  completed_without_payload_no_event completedNoPayload "abcd1234" 7 true initWorkerSt
    1 (some "") none (by decide)
    (fun j hj => by rcases Nat.lt_one_iff.mp hj with rfl; rfl)
    rfl rfl

/-!
## The pending-UI-updates queue and its pump

`_save_generated_model` appends to `self._pending_ui_updates` from the
worker thread; the UI-thread tick `process_ui_updates` (lines 378-391)
does `updates_to_process = self._pending_ui_updates[:]`, then
`self._pending_ui_updates.clear()`, then processes the copy.  The copy
and the clear are two separate statements, so a worker append can
interleave between them.  Interleavings are modelled as sequences of the
GIL-atomic steps of the two threads; events are identified by their
production index, so the n-th append pushes `n`.
-/

/-- Where the pump is inside one tick: before the snapshot, between the
slice copy and the `clear()`, or between the `clear()` and processing. -/
inductive PumpPhase where
  | idle
  | snapped
  | cleared
  deriving DecidableEq, Repr

/-- The shared queue state: `pending` is `_pending_ui_updates`,
`snapshot` the pump's local `updates_to_process`, `drained` the events
already processed (in processing order), `produced` the number of events
ever appended. -/
structure QueueSt where
  pending : List Nat
  snapshot : List Nat
  drained : List Nat
  produced : Nat
  phase : PumpPhase
  deriving DecidableEq, Repr

def QueueSt.init : QueueSt :=
  { pending := [], snapshot := [], drained := [], produced := 0, phase := PumpPhase.idle }

/-- The GIL-atomic steps: one `append` by the worker, and the three
statements of a pump tick (the emptiness test plus slice copy, the
`clear()`, and the processing of the snapshot — processing never touches
`pending`, so it is one step here). -/
inductive QAct where
  | produce
  | snap
  | clear
  | process
  deriving DecidableEq, Repr

def qstep (s : QueueSt) : QAct → QueueSt
  | QAct.produce =>
      { s with pending := s.pending ++ [s.produced], produced := s.produced + 1 }
  | QAct.snap =>
      match s.phase with
      | PumpPhase.idle =>
          if s.pending.isEmpty then s
          else { s with snapshot := s.pending, phase := PumpPhase.snapped }
      | _ => s
  | QAct.clear =>
      match s.phase with
      | PumpPhase.snapped => { s with pending := [], phase := PumpPhase.cleared }
      | _ => s
  | QAct.process =>
      match s.phase with
      | PumpPhase.cleared =>
          { s with drained := s.drained ++ s.snapshot, snapshot := [], phase := PumpPhase.idle }
      | _ => s

def qrun (acts : List QAct) (s : QueueSt) : QueueSt :=
  acts.foldl qstep s

/-- The interleaving in which the worker appends event 1 between the
pump's slice copy and its `clear()`. -/
def lostEventTrace : QueueSt :=
  qrun [QAct.produce, QAct.snap, QAct.produce, QAct.clear, QAct.process,
        QAct.snap, QAct.clear, QAct.process] QueueSt.init

/-- C1 counterexample: in the interleaving where the producer appends
event 1 after the pump has copied `[0]` but before it clears the shared
list, the `clear()` erases event 1 unprocessed: afterwards 2 events were
produced but only event 0 was ever drained, and event 1 is in no list —
the drain lost it, and further ticks (the trailing snap/clear/process)
cannot recover it. -/
theorem drain_loses_concurrent_append_cex :
    lostEventTrace.produced = 2 ∧ lostEventTrace.drained = [0] ∧
    lostEventTrace.pending = [] ∧ lostEventTrace.snapshot = [] := by decide

/-- The amended drain: the spec's required atomic hand-off (§5) makes the
slice copy and the `clear()` one indivisible step, with no append in
between; producing and processing are unchanged. -/
inductive AQAct where
  | produce
  | snapclear
  | process
  deriving DecidableEq, Repr

def aqstep (s : QueueSt) : AQAct → QueueSt
  | AQAct.produce =>
      { s with pending := s.pending ++ [s.produced], produced := s.produced + 1 }
  | AQAct.snapclear =>
      match s.phase with
      | PumpPhase.idle =>
          if s.pending.isEmpty then s
          else { s with snapshot := s.pending, pending := [], phase := PumpPhase.cleared }
      | _ => s
  | AQAct.process =>
      match s.phase with
      | PumpPhase.cleared =>
          { s with drained := s.drained ++ s.snapshot, snapshot := [], phase := PumpPhase.idle }
      | _ => s

def aqrun (acts : List AQAct) (s : QueueSt) : QueueSt :=
  acts.foldl aqstep s

/-- The no-loss/no-duplication invariant: every event ever produced sits
in exactly one of drained / snapshot / pending, in production order. -/
def QueueSt.inv (s : QueueSt) : Prop :=
  s.drained ++ s.snapshot ++ s.pending = List.range s.produced ∧
  (s.phase = PumpPhase.idle → s.snapshot = [])

theorem aqstep_inv (s : QueueSt) (a : AQAct) (h : s.inv) : (aqstep s a).inv := by
  obtain ⟨h1, h2⟩ := h
  cases a with
  | produce =>
      refine ⟨?_, fun hp => by simpa using h2 hp⟩
      simp only [aqstep, List.range_succ, ← h1, List.append_assoc]
  | snapclear =>
      simp only [aqstep]
      cases hph : s.phase with
      | idle =>
          have hs := h2 hph
          by_cases he : s.pending.isEmpty = true
          · rw [if_pos he]
            exact ⟨h1, fun _ => hs⟩
          · rw [if_neg he]
            refine ⟨?_, by simp⟩
            simpa [hs] using h1
      | snapped => exact ⟨h1, fun hp => h2 (hph ▸ hp)⟩
      | cleared => exact ⟨h1, fun hp => h2 (hph ▸ hp)⟩
  | process =>
      simp only [aqstep]
      cases hph : s.phase with
      | idle => exact ⟨h1, fun _ => h2 hph⟩
      | snapped => exact ⟨h1, fun hp => h2 (hph ▸ hp)⟩
      | cleared =>
          refine ⟨?_, fun _ => rfl⟩
          simpa [List.append_assoc] using h1

theorem aqrun_inv (acts : List AQAct) :
    ∀ s : QueueSt, s.inv → (aqrun acts s).inv := by
  induction acts with
  | nil => intro s h; exact h
  | cons a acts ih => intro s h; exact ih (aqstep s a) (aqstep_inv s a h)

/-- C1 amended: with the atomic snapshot-and-clear hand-off the spec
prescribes, no interleaving of appends, drain takes and processing ever
loses or duplicates an event: at every point, the processed events
followed by the in-flight snapshot and the still-pending events are
exactly the events produced so far, each exactly once and in order (so in
particular the drained list never holds a duplicate, and an event
appended during processing is still pending for the next tick). -/
theorem atomic_drain_no_loss_no_dup (acts : List AQAct) :
    (aqrun acts QueueSt.init).drained ++ (aqrun acts QueueSt.init).snapshot ++
        (aqrun acts QueueSt.init).pending
      = List.range (aqrun acts QueueSt.init).produced ∧
    (aqrun acts QueueSt.init).drained.Nodup := by
  have h := aqrun_inv acts QueueSt.init ⟨by simp [QueueSt.init], fun _ => rfl⟩
  refine ⟨h.1, ?_⟩
  have hr : ((aqrun acts QueueSt.init).drained ++ ((aqrun acts QueueSt.init).snapshot ++
      (aqrun acts QueueSt.init).pending)).Nodup := by
    rw [← List.append_assoc, h.1]; exact List.nodup_range _
  exact hr.of_append_left

/-!
## At most one generation job in flight

`_generate_3d_model` (lines 698-714) returns early when no usable image
is selected; otherwise it disables the Generate button and spawns the
worker thread.  Every worker exit path — the early returns of
`_generate_3d_model_async`, its exception handlers, and the `finally` of
`_poll_generation_status` — re-enables the button as its last act.  The
host only invokes a button's `clicked_fn` while the button is enabled.
-/

/-- The trigger-relevant state: the Generate button flag and the number
of live generation worker threads. -/
structure TriggerSt where
  genBtnEnabled : Bool
  activeWorkers : Nat
  deriving DecidableEq, Repr

/-- `on_startup`: button enabled, no worker. -/
def TriggerSt.startup : TriggerSt := { genBtnEnabled := true, activeWorkers := 0 }

/-- External events: a click of the Generate button (recording whether a
valid image is currently selected) and a worker reaching an exit path
(which re-enables the button and ends the thread). -/
inductive TrigEvent where
  | click (imageSelected : Bool)
  | workerExit
  deriving DecidableEq, Repr

def trigStep (s : TriggerSt) : TrigEvent → TriggerSt
  | TrigEvent.click imageSelected =>
      if s.genBtnEnabled then
        if imageSelected then
          { genBtnEnabled := false, activeWorkers := s.activeWorkers + 1 }
        else s
      else s
  | TrigEvent.workerExit =>
      match s.activeWorkers with
      | 0 => s
      | n + 1 => { genBtnEnabled := true, activeWorkers := n }

def trigRun (evts : List TrigEvent) (s : TriggerSt) : TriggerSt :=
  evts.foldl trigStep s

theorem trigStep_inv (s : TriggerSt) (e : TrigEvent)
    (h : s.genBtnEnabled = false ↔ s.activeWorkers = 1) (hle : s.activeWorkers ≤ 1) :
    ((trigStep s e).genBtnEnabled = false ↔ (trigStep s e).activeWorkers = 1) ∧
      (trigStep s e).activeWorkers ≤ 1 := by
  cases e with
  | click sel =>
      simp only [trigStep]
      by_cases hb : s.genBtnEnabled = true
      · have h0 : s.activeWorkers = 0 := by
          rcases Nat.lt_or_ge s.activeWorkers 1 with h1 | h1
          · omega
          · exact absurd (h.mpr (by omega)) (by simp [hb])
        rw [if_pos hb]
        cases sel
        · rw [if_neg (by simp)]
          exact ⟨h, hle⟩
        · rw [if_pos rfl]
          exact ⟨by simp [h0], by simp [h0]⟩
      · simp only [Bool.not_eq_true] at hb
        rw [if_neg (by simp [hb])]
        exact ⟨h, hle⟩
  | workerExit =>
      simp only [trigStep]
      rcases hw : s.activeWorkers with _ | n
      · rw [hw] at h
        simp only [hw]
        exact ⟨h, by omega⟩
      · rw [hw] at hle
        have hn : n = 0 := by omega
        subst hn
        simp only [hw]
        exact ⟨by simp, by omega⟩

/-!
## Unique prim path derivation

`_load_glb_to_stage` (lines 970-988) and `_load_glb_to_stage_direct`
(lines 1126-1143) pick `/World/{base_name}` and, while the stage already
holds a valid prim at the candidate, retry `/World/{base_name}_{counter}`
with `counter = 1, 2, ...`.  The stage is modelled by the list of its
valid prim paths.  The Python loop has no explicit bound; it terminates
because the candidates are pairwise distinct strings
(`primPathCandidate_injective`) while the stage is finite
(`exists_free_candidate`), which is why `taken.length + 1` fuel below can
never be exhausted.
-/

/-- The candidate paths the loop tries, in order: the base path first,
then `{base}_{n}` for `n = 1, 2, ...` (`f"{original_prim_path}_{counter}"`). -/
def primPathCandidate (base : String) : Nat → String
  | 0 => base
  | n + 1 => base ++ "_" ++ Nat.repr (n + 1)

/-- The `while stage.GetPrimAtPath(prim_path).IsValid()` loop. -/
def findFreePrimPath (taken : List String) (base : String) : Nat → Nat → String
  | 0, k => primPathCandidate base k
  | fuel + 1, k =>
      if taken.contains (primPathCandidate base k) then
        findFreePrimPath taken base fuel (k + 1)
      else primPathCandidate base k

/-- The prim path an import ends up using. -/
def unique_prim_path (taken : List String) (base : String) : String :=
  findFreePrimPath taken base (taken.length + 1) 0

theorem digitChar_inj_lt_ten {a b : Nat} (ha : a < 10) (hb : b < 10)
    (h : Nat.digitChar a = Nat.digitChar b) : a = b := by
  interval_cases a <;> interval_cases b <;> revert h <;> decide

/-- With enough fuel, `Nat.toDigitsCore` produces the decimal digits of
`n` (least significant last), in front of the accumulator. -/
theorem toDigitsCore_eq_digits (b : Nat) (hb : 1 < b) :
    ∀ (f n : Nat) (l : List Char), 0 < n → n ≤ f →
      Nat.toDigitsCore b f n l = ((Nat.digits b n).map Nat.digitChar).reverse ++ l := by
  intro f
  induction f with
  | zero => intro n l hn hf; omega
  | succ f ih =>
    intro n l hn hf
    simp only [Nat.toDigitsCore]
    by_cases hq : n / b = 0
    · rw [if_pos hq, Nat.digits_def' hb hn, hq, Nat.digits_zero]
      simp
    · rw [if_neg hq]
      have hlt : n / b < n := Nat.div_lt_self hn hb
      rw [ih (n / b) (Nat.digitChar (n % b) :: l) (Nat.pos_of_ne_zero hq) (by omega)]
      rw [Nat.digits_def' hb hn]
      simp [List.append_assoc]

theorem repr_pos_eq (n : Nat) (hn : 0 < n) :
    Nat.repr n = (((Nat.digits 10 n).map Nat.digitChar).reverse).asString := by
  show (Nat.toDigits 10 n).asString = _
  rw [Nat.toDigits, toDigitsCore_eq_digits 10 (by norm_num) (n + 1) n [] hn (Nat.le_succ n)]
  simp

theorem map_digitChar_inj : ∀ (l1 l2 : List Nat), (∀ x ∈ l1, x < 10) → (∀ x ∈ l2, x < 10) →
    l1.map Nat.digitChar = l2.map Nat.digitChar → l1 = l2
  | [], [], _, _, _ => rfl
  | [], _ :: _, _, _, h => by simp at h
  | _ :: _, [], _, _, h => by simp at h
  | a :: l1, b :: l2, h1, h2, h => by
      simp only [List.map_cons, List.cons.injEq] at h
      have hab := digitChar_inj_lt_ten (h1 a (by simp)) (h2 b (by simp)) h.1
      subst hab
      rw [map_digitChar_inj l1 l2 (fun x hx => h1 x (by simp [hx]))
        (fun x hx => h2 x (by simp [hx])) h.2]

theorem nat_repr_injective : Function.Injective Nat.repr := by
  have hzero : ∀ n : Nat, 0 < n → Nat.repr n ≠ "0" := by
    intro n hn hcon
    have h1 : ((Nat.digits 10 n).map Nat.digitChar).reverse = ['0'] := by
      have := congrArg String.data ((repr_pos_eq n hn).symm.trans hcon)
      simpa [List.asString] using this
    have h2 : (Nat.digits 10 n).map Nat.digitChar = ['0'] := by
      have := congrArg List.reverse h1
      simpa using this
    have h3 : Nat.digits 10 n = [0] :=
      map_digitChar_inj _ [0] (fun x hx => Nat.digits_lt_base (by norm_num) hx)
        (by intro x hx; simp at hx; omega) h2
    have h4 := Nat.ofDigits_digits 10 n
    rw [h3] at h4
    simp [Nat.ofDigits] at h4
    omega
  have h00 : Nat.repr 0 = "0" := rfl
  intro m n h
  rcases Nat.eq_zero_or_pos m with rfl | hm
  · rcases Nat.eq_zero_or_pos n with rfl | hn
    · rfl
    · rw [h00] at h
      exact absurd h.symm (hzero n hn)
  · rcases Nat.eq_zero_or_pos n with rfl | hn
    · rw [h00] at h
      exact absurd h (hzero m hm)
    · have h1 : ((Nat.digits 10 m).map Nat.digitChar).reverse
          = ((Nat.digits 10 n).map Nat.digitChar).reverse := by
        have := congrArg String.data
          ((repr_pos_eq m hm).symm.trans (h.trans (repr_pos_eq n hn)))
        simpa [List.asString] using this
      have h2 : (Nat.digits 10 m).map Nat.digitChar = (Nat.digits 10 n).map Nat.digitChar := by
        have := congrArg List.reverse h1
        simpa using this
      have h3 := map_digitChar_inj _ _ (fun x hx => Nat.digits_lt_base (by norm_num) hx)
        (fun x hx => Nat.digits_lt_base (by norm_num) hx) h2
      have h4 := Nat.ofDigits_digits 10 m
      rw [h3, Nat.ofDigits_digits] at h4
      exact h4.symm

theorem primPathCandidate_injective (base : String) :
    Function.Injective (primPathCandidate base) := by
  intro a b h
  match a, b with
  | 0, 0 => rfl
  | 0, n + 1 =>
      exfalso
      have hlen := congrArg String.length h
      have hu : "_".length = 1 := rfl
      simp only [primPathCandidate, String.length_append, hu] at hlen
      omega
  | m + 1, 0 =>
      exfalso
      have hlen := congrArg String.length h
      have hu : "_".length = 1 := rfl
      simp only [primPathCandidate, String.length_append, hu] at hlen
      omega
  | m + 1, n + 1 =>
      have hd := congrArg String.data h
      simp only [primPathCandidate, String.data_append, List.append_assoc] at hd
      have hd2 := List.append_cancel_left hd
      have hd3 := List.append_cancel_left hd2
      have hr : Nat.repr (m + 1) = Nat.repr (n + 1) := String.ext hd3
      exact nat_repr_injective hr

/-- Pigeonhole: among the first `taken.length + 1` candidates at least
one is not on the stage. -/
theorem exists_free_candidate (taken : List String) (base : String) :
    ∃ j, j ≤ taken.length ∧ taken.contains (primPathCandidate base j) = false := by
  by_contra hcon
  push_neg at hcon
  have hmem : ∀ j, j ≤ taken.length → primPathCandidate base j ∈ taken := by
    intro j hj
    have hne := hcon j hj
    have hb : taken.contains (primPathCandidate base j) = true := by
      cases hcb : taken.contains (primPathCandidate base j)
      · exact absurd hcb hne
      · rfl
    exact List.elem_iff.mp hb
  have hnd : ((List.range (taken.length + 1)).map (primPathCandidate base)).Nodup :=
    (List.nodup_range _).map (primPathCandidate_injective base)
  have hcard1 : ((List.range (taken.length + 1)).map (primPathCandidate base)).toFinset.card
      = taken.length + 1 := by
    rw [List.toFinset_card_of_nodup hnd, List.length_map, List.length_range]
  have hcard2 : ((List.range (taken.length + 1)).map (primPathCandidate base)).toFinset
      ⊆ taken.toFinset := by
    intro x hx
    rw [List.mem_toFinset] at hx ⊢
    simp only [List.mem_map, List.mem_range] at hx
    obtain ⟨j, hj, rfl⟩ := hx
    exact hmem j (by omega)
  have hle := Finset.card_le_card hcard2
  have hfin : taken.toFinset.card ≤ taken.length := List.toFinset_card_le taken
  omega

theorem findFreePrimPath_spec (taken : List String) (base : String) :
    ∀ (fuel k : Nat),
      (∃ j, j < fuel ∧ taken.contains (primPathCandidate base (k + j)) = false) →
      ∃ j, j < fuel ∧
        findFreePrimPath taken base fuel k = primPathCandidate base (k + j) ∧
        taken.contains (primPathCandidate base (k + j)) = false ∧
        ∀ i, i < j → taken.contains (primPathCandidate base (k + i)) = true := by
  intro fuel
  induction fuel with
  | zero => intro k h; obtain ⟨j, hj, _⟩ := h; omega
  | succ fuel ih =>
    intro k h
    by_cases hk : taken.contains (primPathCandidate base k) = true
    · obtain ⟨j, hj, hfree⟩ := h
      have hj0 : j ≠ 0 := by
        intro hj0
        subst hj0
        rw [Nat.add_zero] at hfree
        rw [hk] at hfree
        exact Bool.noConfusion hfree
      obtain ⟨j', rfl⟩ : ∃ j', j = j' + 1 := ⟨j - 1, by omega⟩
      obtain ⟨j2, hj2, heq, hfree2, hmin2⟩ := ih (k + 1)
        ⟨j', by omega, by
          have he : k + 1 + j' = k + (j' + 1) := by omega
          rw [he]; exact hfree⟩
      refine ⟨j2 + 1, by omega, ?_, ?_, ?_⟩
      · simp only [findFreePrimPath, hk, if_true]
        rw [heq]
        congr 1
        omega
      · have he : k + (j2 + 1) = k + 1 + j2 := by omega
        rw [he]; exact hfree2
      · intro i hi
        rcases Nat.eq_zero_or_pos i with rfl | hipos
        · simpa using hk
        · obtain ⟨i', rfl⟩ : ∃ i', i = i' + 1 := ⟨i - 1, by omega⟩
          have he : k + (i' + 1) = k + 1 + i' := by omega
          rw [he]
          exact hmin2 i' (by omega)
    · simp only [Bool.not_eq_true] at hk
      refine ⟨0, by omega, ?_, by simpa using hk, ?_⟩
      · simp only [findFreePrimPath, hk]
        simp
      · intro i hi
        exact absurd hi (Nat.not_lt_zero i)

/-- C9: the import loop always picks a path that does not already name a
valid prim, and picks exactly the first free candidate: the base
`/World/{name}` when free, else `/World/{name}_{n}` for the least
`n >= 1` whose path is free (every earlier candidate being taken). -/
theorem import_prim_path_fresh_and_least (taken : List String) (base : String) :
    ∃ k, unique_prim_path taken base = primPathCandidate base k ∧
      taken.contains (primPathCandidate base k) = false ∧
      ∀ j, j < k → taken.contains (primPathCandidate base j) = true := by
  obtain ⟨j0, hj0, hfree0⟩ := exists_free_candidate taken base
  obtain ⟨j, hj, heq, hfree, hmin⟩ := findFreePrimPath_spec taken base (taken.length + 1) 0
    ⟨j0, by omega, by simpa using hfree0⟩
  exact ⟨j, by simpa using heq, by simpa using hfree,
    fun i hi => by simpa using hmin i hi⟩

/-- C5: in every event sequence starting at startup, at most one
generation worker is ever alive, and the Generate button is disabled
exactly while one is — clicks landing while a worker runs spawn nothing,
and only a worker reaching a terminal outcome re-enables the trigger. -/
theorem single_generation_worker (evts : List TrigEvent) :
    (trigRun evts TriggerSt.startup).activeWorkers ≤ 1 ∧
    ((trigRun evts TriggerSt.startup).genBtnEnabled = false ↔
      (trigRun evts TriggerSt.startup).activeWorkers = 1) := by
  suffices h : ∀ s : TriggerSt,
      (s.genBtnEnabled = false ↔ s.activeWorkers = 1) → s.activeWorkers ≤ 1 →
      (trigRun evts s).activeWorkers ≤ 1 ∧
      ((trigRun evts s).genBtnEnabled = false ↔ (trigRun evts s).activeWorkers = 1) by
    exact h TriggerSt.startup (by simp [TriggerSt.startup]) (by simp [TriggerSt.startup])
  induction evts with
  | nil => intro s h1 h2; exact ⟨h2, h1⟩
  | cons e evts ih =>
      intro s h1 h2
      obtain ⟨h1', h2'⟩ := trigStep_inv s e h1 h2
      exact ih (trigStep s e) h1' h2'

end HunyuanExt
